import Mathlib

/-!
Verification development for the multiply-accumulate server
(`examples/sy/mulacc/mulaccwrap/mulacc.py`).

The server keeps a global integer `accumulator` (initially 0).  Its session
handler `handle_client` loops: it receives a chunk of at most 1024 bytes,
breaks out of the loop when the chunk is empty, decodes the chunk as UTF-8
(a decode failure raises out of the loop), strips the trailing run of null
characters, splits the text on whitespace, parses exactly two integers,
adds their product to the accumulator (a parse failure is absorbed and
contributes nothing), and writes back the decimal string of the accumulator
followed by one null byte.  A `finally` clause closes the connection on
every way out of the loop.

The embedding below represents byte strings and decoded texts as `List Nat`
(bytes, respectively Unicode code points), and the session as a function
from the initial accumulator value and the list of chunks successively
returned by `recv` to the list of responses written, the final accumulator,
the way the loop ended, and how many times the connection was closed.
-/

/-- Code points on which Python `str.split()` (no argument) splits: the
code points `c` with `chr(c).isspace()`. -/
def isPySpace (c : Nat) : Bool :=
  (9 ≤ c && c ≤ 13) || (28 ≤ c && c ≤ 31) || c == 32 || c == 133 ||
  c == 160 || c == 0x1680 || (0x2000 ≤ c && c ≤ 0x200A) || c == 0x2028 ||
  c == 0x2029 || c == 0x202F || c == 0x205F || c == 0x3000

/-- Helper for `pySplit`: `cur` holds the (reversed) token being read. -/
def pySplitAux : List Nat → List Nat → List (List Nat)
  | [], cur => if cur.isEmpty then [] else [cur.reverse]
  | c :: cs, cur =>
    if isPySpace c then
      if cur.isEmpty then pySplitAux cs [] else cur.reverse :: pySplitAux cs []
    else
      pySplitAux cs (c :: cur)

/-- Python `message.split()`: split on runs of whitespace, producing no
empty tokens. -/
def pySplit (s : List Nat) : List (List Nat) :=
  pySplitAux s []

/-- Decimal value of a Unicode decimal digit (category Nd), as CPython's
`int()` accepts it: every Nd block of the Unicode character database
(version 14.0.0, the one CPython ships) maps its code points to 0..9;
every other code point is not a digit.  `int("\u0663") == 3` in CPython,
so the ASCII range is only the first of these blocks. -/
def pyDigitVal (c : Nat) : Option Nat :=
  if 0x30 ≤ c && c ≤ 0x39 then some (c - 0x30)
  else if 0x660 ≤ c && c ≤ 0x669 then some (c - 0x660)
  else if 0x6F0 ≤ c && c ≤ 0x6F9 then some (c - 0x6F0)
  else if 0x7C0 ≤ c && c ≤ 0x7C9 then some (c - 0x7C0)
  else if 0x966 ≤ c && c ≤ 0x96F then some (c - 0x966)
  else if 0x9E6 ≤ c && c ≤ 0x9EF then some (c - 0x9E6)
  else if 0xA66 ≤ c && c ≤ 0xA6F then some (c - 0xA66)
  else if 0xAE6 ≤ c && c ≤ 0xAEF then some (c - 0xAE6)
  else if 0xB66 ≤ c && c ≤ 0xB6F then some (c - 0xB66)
  else if 0xBE6 ≤ c && c ≤ 0xBEF then some (c - 0xBE6)
  else if 0xC66 ≤ c && c ≤ 0xC6F then some (c - 0xC66)
  else if 0xCE6 ≤ c && c ≤ 0xCEF then some (c - 0xCE6)
  else if 0xD66 ≤ c && c ≤ 0xD6F then some (c - 0xD66)
  else if 0xDE6 ≤ c && c ≤ 0xDEF then some (c - 0xDE6)
  else if 0xE50 ≤ c && c ≤ 0xE59 then some (c - 0xE50)
  else if 0xED0 ≤ c && c ≤ 0xED9 then some (c - 0xED0)
  else if 0xF20 ≤ c && c ≤ 0xF29 then some (c - 0xF20)
  else if 0x1040 ≤ c && c ≤ 0x1049 then some (c - 0x1040)
  else if 0x1090 ≤ c && c ≤ 0x1099 then some (c - 0x1090)
  else if 0x17E0 ≤ c && c ≤ 0x17E9 then some (c - 0x17E0)
  else if 0x1810 ≤ c && c ≤ 0x1819 then some (c - 0x1810)
  else if 0x1946 ≤ c && c ≤ 0x194F then some (c - 0x1946)
  else if 0x19D0 ≤ c && c ≤ 0x19D9 then some (c - 0x19D0)
  else if 0x1A80 ≤ c && c ≤ 0x1A89 then some (c - 0x1A80)
  else if 0x1A90 ≤ c && c ≤ 0x1A99 then some (c - 0x1A90)
  else if 0x1B50 ≤ c && c ≤ 0x1B59 then some (c - 0x1B50)
  else if 0x1BB0 ≤ c && c ≤ 0x1BB9 then some (c - 0x1BB0)
  else if 0x1C40 ≤ c && c ≤ 0x1C49 then some (c - 0x1C40)
  else if 0x1C50 ≤ c && c ≤ 0x1C59 then some (c - 0x1C50)
  else if 0xA620 ≤ c && c ≤ 0xA629 then some (c - 0xA620)
  else if 0xA8D0 ≤ c && c ≤ 0xA8D9 then some (c - 0xA8D0)
  else if 0xA900 ≤ c && c ≤ 0xA909 then some (c - 0xA900)
  else if 0xA9D0 ≤ c && c ≤ 0xA9D9 then some (c - 0xA9D0)
  else if 0xA9F0 ≤ c && c ≤ 0xA9F9 then some (c - 0xA9F0)
  else if 0xAA50 ≤ c && c ≤ 0xAA59 then some (c - 0xAA50)
  else if 0xABF0 ≤ c && c ≤ 0xABF9 then some (c - 0xABF0)
  else if 0xFF10 ≤ c && c ≤ 0xFF19 then some (c - 0xFF10)
  else if 0x104A0 ≤ c && c ≤ 0x104A9 then some (c - 0x104A0)
  else if 0x10D30 ≤ c && c ≤ 0x10D39 then some (c - 0x10D30)
  else if 0x11066 ≤ c && c ≤ 0x1106F then some (c - 0x11066)
  else if 0x110F0 ≤ c && c ≤ 0x110F9 then some (c - 0x110F0)
  else if 0x11136 ≤ c && c ≤ 0x1113F then some (c - 0x11136)
  else if 0x111D0 ≤ c && c ≤ 0x111D9 then some (c - 0x111D0)
  else if 0x112F0 ≤ c && c ≤ 0x112F9 then some (c - 0x112F0)
  else if 0x11450 ≤ c && c ≤ 0x11459 then some (c - 0x11450)
  else if 0x114D0 ≤ c && c ≤ 0x114D9 then some (c - 0x114D0)
  else if 0x11650 ≤ c && c ≤ 0x11659 then some (c - 0x11650)
  else if 0x116C0 ≤ c && c ≤ 0x116C9 then some (c - 0x116C0)
  else if 0x11730 ≤ c && c ≤ 0x11739 then some (c - 0x11730)
  else if 0x118E0 ≤ c && c ≤ 0x118E9 then some (c - 0x118E0)
  else if 0x11950 ≤ c && c ≤ 0x11959 then some (c - 0x11950)
  else if 0x11C50 ≤ c && c ≤ 0x11C59 then some (c - 0x11C50)
  else if 0x11D50 ≤ c && c ≤ 0x11D59 then some (c - 0x11D50)
  else if 0x11DA0 ≤ c && c ≤ 0x11DA9 then some (c - 0x11DA0)
  else if 0x16A60 ≤ c && c ≤ 0x16A69 then some (c - 0x16A60)
  else if 0x16AC0 ≤ c && c ≤ 0x16AC9 then some (c - 0x16AC0)
  else if 0x16B50 ≤ c && c ≤ 0x16B59 then some (c - 0x16B50)
  else if 0x1D7CE ≤ c && c ≤ 0x1D7D7 then some (c - 0x1D7CE)
  else if 0x1D7D8 ≤ c && c ≤ 0x1D7E1 then some (c - 0x1D7D8)
  else if 0x1D7E2 ≤ c && c ≤ 0x1D7EB then some (c - 0x1D7E2)
  else if 0x1D7EC ≤ c && c ≤ 0x1D7F5 then some (c - 0x1D7EC)
  else if 0x1D7F6 ≤ c && c ≤ 0x1D7FF then some (c - 0x1D7F6)
  else if 0x1E140 ≤ c && c ≤ 0x1E149 then some (c - 0x1E140)
  else if 0x1E2F0 ≤ c && c ≤ 0x1E2F9 then some (c - 0x1E2F0)
  else if 0x1E950 ≤ c && c ≤ 0x1E959 then some (c - 0x1E950)
  else if 0x1FBF0 ≤ c && c ≤ 0x1FBF9 then some (c - 0x1FBF0)
  else none

/-- Digits of a Python integer literal after the first digit: a run of
decimal digits (any Unicode Nd digit, mixed scripts allowed) in which
single underscores may stand between two digits. -/
def pyDigitsAux : List Nat → Nat → Option Nat
  | [], acc => some acc
  | c :: cs, acc =>
    match pyDigitVal c with
    | some d => pyDigitsAux cs (acc * 10 + d)
    | none =>
      if c == 95 then
        match cs with
        | c2 :: _ => if (pyDigitVal c2).isSome then pyDigitsAux cs acc else none
        | [] => none
      else none

/-- A nonempty digit run (first code point must be a digit, then
`pyDigitsAux`). -/
def pyDigits : List Nat → Option Nat
  | [] => none
  | c :: cs =>
    match pyDigitVal c with
    | some d => pyDigitsAux cs d
    | none => none

/-- Python `int(token)` on a whitespace-free token: an optional sign
followed by a nonempty run of decimal digits (any Unicode Nd digits, with
Python's underscore separators); anything else raises `ValueError`,
embedded as `none`. -/
def pyInt (s : List Nat) : Option Int :=
  match s with
  | [] => none
  | c :: cs =>
    if c == 43 then (pyDigits cs).map (fun n => (n : Int))
    else if c == 45 then (pyDigits cs).map (fun n => -(n : Int))
    else (pyDigits s).map (fun n => (n : Int))

/-- `message.rstrip("\x00")`: remove the trailing run of null characters,
and only that run. -/
def rstripNull (s : List Nat) : List Nat :=
  (s.reverse.dropWhile (fun c => c == 0)).reverse

/-- Whether a byte is a UTF-8 continuation byte. -/
def isCont (c : Nat) : Bool :=
  0x80 ≤ c && c ≤ 0xBF

/-- Python `data.decode("utf-8")` (strict): decode a byte string to its
code points, rejecting truncated sequences, stray continuation bytes,
overlong encodings, surrogates and code points above `0x10FFFF`; `none`
embeds the raised `UnicodeDecodeError`. -/
def decodeUtf8 : List Nat → Option (List Nat)
  | [] => some []
  | b :: rest =>
    if b ≤ 0x7F then
      (decodeUtf8 rest).map (fun t => b :: t)
    else if 0xC2 ≤ b && b ≤ 0xDF then
      match rest with
      | c1 :: r =>
        if isCont c1 then
          (decodeUtf8 r).map (fun t => ((b - 0xC0) * 0x40 + (c1 - 0x80)) :: t)
        else none
      | [] => none
    else if b == 0xE0 then
      match rest with
      | c1 :: c2 :: r =>
        if (0xA0 ≤ c1 && c1 ≤ 0xBF) && isCont c2 then
          (decodeUtf8 r).map
            (fun t => ((c1 - 0x80) * 0x40 + (c2 - 0x80)) :: t)
        else none
      | _ => none
    else if (0xE1 ≤ b && b ≤ 0xEC) || (0xEE ≤ b && b ≤ 0xEF) then
      match rest with
      | c1 :: c2 :: r =>
        if isCont c1 && isCont c2 then
          (decodeUtf8 r).map
            (fun t =>
              ((b - 0xE0) * 0x1000 + (c1 - 0x80) * 0x40 + (c2 - 0x80)) :: t)
        else none
      | _ => none
    else if b == 0xED then
      match rest with
      | c1 :: c2 :: r =>
        if (0x80 ≤ c1 && c1 ≤ 0x9F) && isCont c2 then
          (decodeUtf8 r).map
            (fun t =>
              (0xD000 + (c1 - 0x80) * 0x40 + (c2 - 0x80)) :: t)
        else none
      | _ => none
    else if b == 0xF0 then
      match rest with
      | c1 :: c2 :: c3 :: r =>
        if (0x90 ≤ c1 && c1 ≤ 0xBF) && (isCont c2 && isCont c3) then
          (decodeUtf8 r).map
            (fun t =>
              ((c1 - 0x80) * 0x1000 + (c2 - 0x80) * 0x40 + (c3 - 0x80)) :: t)
        else none
      | _ => none
    else if 0xF1 ≤ b && b ≤ 0xF3 then
      match rest with
      | c1 :: c2 :: c3 :: r =>
        if isCont c1 && (isCont c2 && isCont c3) then
          (decodeUtf8 r).map
            (fun t =>
              ((b - 0xF0) * 0x40000 + (c1 - 0x80) * 0x1000 +
                (c2 - 0x80) * 0x40 + (c3 - 0x80)) :: t)
        else none
      | _ => none
    else if b == 0xF4 then
      match rest with
      | c1 :: c2 :: c3 :: r =>
        if (0x80 ≤ c1 && c1 ≤ 0x8F) && (isCont c2 && isCont c3) then
          (decodeUtf8 r).map
            (fun t =>
              (0x100000 + (c1 - 0x80) * 0x1000 +
                (c2 - 0x80) * 0x40 + (c3 - 0x80)) :: t)
        else none
      | _ => none
    else none

/-- `a, b = map(int, message.split())`: succeeds exactly when the split
yields two tokens and both parse as integers; every other shape (wrong
token count or a token `int` rejects) raises `ValueError`, embedded as
`none`.  On failure the handler sets `result = 0` and the accumulator is
untouched. -/
def parsePair (msg : List Nat) : Option (Int × Int) :=
  match pySplit msg with
  | [t1, t2] =>
    match pyInt t1, pyInt t2 with
    | some a, some b => some (a, b)
    | _, _ => none
  | _ => none

/-- One iteration's accumulator update (lines 28-34 of the source):
`accumulator += a * b` when the message parses, unchanged otherwise. -/
def updateAcc (acc : Int) (msg : List Nat) : Int :=
  match parsePair msg with
  | some (a, b) => acc + a * b
  | none => acc

/-- Decimal digit bytes of a natural number; the first argument is fuel
(any amount above the number of digits gives the exact digits). -/
def natDecimalAux : Nat → Nat → List Nat
  | 0, _ => []
  | fuel + 1, n =>
    if n < 10 then [48 + n] else natDecimalAux fuel (n / 10) ++ [48 + n % 10]

/-- Decimal digit bytes of a natural number. -/
def natDecimal (n : Nat) : List Nat :=
  natDecimalAux (n + 1) n

/-- UTF-8 bytes of Python `f-string` formatting of an integer: the decimal
digits, preceded by a minus sign byte when negative (all bytes ASCII). -/
def intDecimal (i : Int) : List Nat :=
  if i < 0 then 45 :: natDecimal i.natAbs else natDecimal i.toNat

/-- The byte string `f"{accumulator}\x00".encode("utf-8")` written back
for one request. -/
def response (acc : Int) : List Nat :=
  intDecimal acc ++ [0]

/-- How the session loop ended: `eof` for an empty chunk (`break`),
`decodeError` for a UTF-8 decode failure (the exception propagates out of
the loop), `writeError` for a `sendall` that raises (likewise propagating
through the `finally`), `pending` when the modelled chunk list ran out
while the loop would still be waiting in `recv`. -/
inductive Outcome where
  | eof
  | decodeError
  | writeError
  | pending
  deriving DecidableEq

/-- Result of running `handle_client` on a list of received chunks:
responses written in order, final accumulator, how the loop ended, and how
many times `conn.close()` ran (the `finally` clause runs it once whenever
the handler returns or the decode exception propagates; while the loop is
still `pending` it has not run). -/
structure RunResult where
  responses : List (List Nat)
  acc : Int
  outcome : Outcome
  closeCount : Nat
  deriving DecidableEq

/-- The source's global `accumulator` at process start (line 11). -/
def accumulator : Int := 0

/-- The session handler `handle_client` (lines 14-42), shallowly embedded:
`acc` is the accumulator value on entry and the list holds the chunks
successively returned by `conn.recv(1024)`.  Each iteration takes the next
chunk; an empty chunk breaks out of the loop; the chunk is decoded (a
failure ends the session with the exception propagating through the
`finally`), the decoded text is stripped of trailing nulls, the accumulator
updated by `updateAcc`, and the response for the new accumulator value
written.  The `finally` close is counted on every exit.  Here every
`sendall` succeeds; `handle_client_io` below also models failing ones. -/
def handle_client (acc : Int) : List (List Nat) → RunResult
  | [] => ⟨[], acc, Outcome.pending, 0⟩
  | chunk :: rest =>
    if chunk = [] then ⟨[], acc, Outcome.eof, 1⟩
    else
      match decodeUtf8 chunk with
      | none => ⟨[], acc, Outcome.decodeError, 1⟩
      | some text =>
        let acc2 := updateAcc acc (rstripNull text)
        let r := handle_client acc2 rest
        ⟨response acc2 :: r.responses, r.acc, r.outcome, r.closeCount⟩

/-- The session handler with the outcome of each `conn.sendall` supplied
by the environment: the extra list holds, for each attempted send in
order, whether it succeeds; a missing entry means it succeeds.  A failing
send raises out of the loop after the accumulator was already updated
(line 31 runs before line 38): no response is observed, the `finally`
closes the connection once, and the exception propagates
(`Outcome.writeError`).  With no injected failure this is exactly
`handle_client`. -/
def handle_client_io (acc : Int) : List (List Nat) → List Bool → RunResult
  | [], _ => ⟨[], acc, Outcome.pending, 0⟩
  | chunk :: rest, sends =>
    if chunk = [] then ⟨[], acc, Outcome.eof, 1⟩
    else
      match decodeUtf8 chunk with
      | none => ⟨[], acc, Outcome.decodeError, 1⟩
      | some text =>
        let acc2 := updateAcc acc (rstripNull text)
        match sends with
        | false :: _ => ⟨[], acc2, Outcome.writeError, 1⟩
        | true :: ss =>
          let r := handle_client_io acc2 rest ss
          ⟨response acc2 :: r.responses, r.acc, r.outcome, r.closeCount⟩
        | [] =>
          let r := handle_client_io acc2 rest []
          ⟨response acc2 :: r.responses, r.acc, r.outcome, r.closeCount⟩

/-- The product contributed by one processed chunk: `a * b` when its
decoded, null-stripped payload parses as the pair `(a, b)`, and `0`
otherwise (`updateAcc` from accumulator `0`). -/
def chunkContrib (text : List Nat) : Int :=
  updateAcc 0 (rstripNull text)

/-- Sum of the products contributed by the chunks the session processes:
the sum stops at the first empty chunk (peer closed) or undecodable chunk
(session aborted), which contribute nothing and end the session. -/
def sumContrib : List (List Nat) → Int
  | [] => 0
  | chunk :: rest =>
    if chunk = [] then 0
    else
      match decodeUtf8 chunk with
      | none => 0
      | some text => chunkContrib text + sumContrib rest

/-- Number of chunks the session processes to the point of writing a
response: the count stops at the first empty or undecodable chunk. -/
def processedLen : List (List Nat) → Nat
  | [] => 0
  | chunk :: rest =>
    if chunk = [] then 0
    else
      match decodeUtf8 chunk with
      | none => 0
      | some _ => 1 + processedLen rest

/-- The accumulator update is a shift: updating from `acc` adds the same
amount as updating from `0`. -/
theorem updateAcc_shift (acc : Int) (msg : List Nat) :
    updateAcc acc msg = acc + updateAcc 0 msg := by
  cases h : parsePair msg <;> simp [updateAcc, h]

/-- C1: after each processed request the accumulator equals the initial
value plus the sum of the products of all successfully parsed pairs seen so
far; chunks that fail to parse contribute 0.  Stated for every entry value
and, starting from the process-start value 0, for every prefix of the
received chunks. -/
theorem mulacc_C1 :
    (∀ (acc : Int) (chunks : List (List Nat)),
        (handle_client acc chunks).acc = acc + sumContrib chunks) ∧
    (∀ (chunks : List (List Nat)) (n : Nat),
        (handle_client accumulator (chunks.take n)).acc =
          sumContrib (chunks.take n)) := by
  have main : ∀ (chunks : List (List Nat)) (acc : Int),
      (handle_client acc chunks).acc = acc + sumContrib chunks := by
    intro chunks
    induction chunks with
    | nil => intro acc; simp [handle_client, sumContrib]
    | cons c cs ih =>
      intro acc
      by_cases hc : c = []
      · simp [handle_client, sumContrib, hc]
      · cases hd : decodeUtf8 c with
        | none => simp [handle_client, sumContrib, hc, hd]
        | some t =>
          simp only [handle_client, sumContrib, if_neg hc, hd, ih]
          rw [chunkContrib, updateAcc_shift]
          ring
  exact ⟨fun acc chunks => main chunks acc,
    fun chunks n => by rw [main, accumulator]; ring⟩

/-- Every byte of the decimal digits of a natural number is an ASCII
digit, at any fuel. -/
theorem natDecimalAux_digit (fuel : Nat) :
    ∀ n b, b ∈ natDecimalAux fuel n → 48 ≤ b ∧ b ≤ 57 := by
  induction fuel with
  | zero => intro n b h; simp [natDecimalAux] at h
  | succ f ih =>
    intro n b h
    by_cases hn : n < 10
    · simp [natDecimalAux, hn] at h
      omega
    · simp [natDecimalAux, hn] at h
      rcases h with h | h
      · exact ih _ _ h
      · omega

/-- No byte of the decimal rendering of an integer is a null byte. -/
theorem intDecimal_no_null (i : Int) : ∀ b ∈ intDecimal i, b ≠ 0 := by
  intro b hb
  rw [intDecimal] at hb
  by_cases hi : i < 0
  · rw [if_pos hi] at hb
    rcases List.mem_cons.mp hb with h | h
    · omega
    · have := natDecimalAux_digit _ _ _ h
      omega
  · rw [if_neg hi] at hb
    have := natDecimalAux_digit _ _ _ hb
    omega

/-- A response contains exactly one null byte, the terminator. -/
theorem response_count_null (i : Int) : (response i).count 0 = 1 := by
  have h : (intDecimal i).count 0 = 0 := by
    rw [List.count_eq_zero]
    intro hmem
    exact intDecimal_no_null i 0 hmem rfl
  simp [response, h]

/-- C2: a chunk whose decoded, null-stripped payload fails to parse as two
integers leaves the accumulator unchanged, does not end the session, and
still gets a response carrying the unchanged accumulator: the run on such a
chunk is the response for the current accumulator followed by the run on
the remaining chunks from the same accumulator. -/
theorem mulacc_C2 :
    ∀ (acc : Int) (chunk : List Nat) (rest : List (List Nat)) (text : List Nat),
      chunk ≠ [] → decodeUtf8 chunk = some text →
      parsePair (rstripNull text) = none →
      handle_client acc (chunk :: rest) =
        ⟨response acc :: (handle_client acc rest).responses,
          (handle_client acc rest).acc,
          (handle_client acc rest).outcome,
          (handle_client acc rest).closeCount⟩ := by
  intro acc chunk rest text hc hd hp
  have hu : updateAcc acc (rstripNull text) = acc := by simp [updateAcc, hp]
  simp [handle_client, hc, hd, hu]

/-- Witness for C2 at the malformed request of the spec's example: payload
`foo` with accumulator 12. -/
theorem mulacc_C2_witness :
    handle_client 12 [[102, 111, 111, 0]] =
      ⟨response 12 :: (handle_client 12 []).responses,
        (handle_client 12 []).acc,
        (handle_client 12 []).outcome,
        (handle_client 12 []).closeCount⟩ :=
  mulacc_C2 12 [102, 111, 111, 0] [] [102, 111, 111, 0]
    (by decide) (by decide) (by decide)

/-- C3 as stated is false: an undecodable chunk is a nonempty received
chunk for which the handler writes no response at all. -/
theorem mulacc_C3_counterexample :
    ([255] : List Nat) ≠ [] ∧
      (handle_client accumulator [[255]]).responses = [] := by
  exact ⟨by decide, by decide⟩

/-- C3 amended: for every nonempty received chunk that decodes as UTF-8,
the handler writes exactly one response, the decimal digit string of the
accumulator's current (updated) value with a leading minus sign byte when
negative, followed by exactly one null byte. -/
theorem mulacc_C3 :
    ∀ (acc : Int) (chunk : List Nat) (rest : List (List Nat)) (text : List Nat),
      chunk ≠ [] → decodeUtf8 chunk = some text →
      (handle_client acc (chunk :: rest)).responses =
        response (updateAcc acc (rstripNull text)) ::
          (handle_client (updateAcc acc (rstripNull text)) rest).responses ∧
      response (updateAcc acc (rstripNull text)) =
        intDecimal (updateAcc acc (rstripNull text)) ++ [0] ∧
      (response (updateAcc acc (rstripNull text))).count 0 = 1 ∧
      (∀ i : Int, i < 0 → intDecimal i = 45 :: natDecimal i.natAbs) := by
  intro acc chunk rest text hc hd
  refine ⟨by simp [handle_client, hc, hd], rfl, response_count_null _, ?_⟩
  intro i hi
  simp [intDecimal, hi, natDecimal]

/-- Witness for C3 (amended) at the request `3 4` from accumulator 0: the
single response is `12` followed by the null terminator. -/
theorem mulacc_C3_witness :
    (handle_client 0 [[51, 32, 52, 0]]).responses = [[49, 50, 0]] := by
  have h := (mulacc_C3 0 [51, 32, 52, 0] [] [51, 32, 52, 0]
    (by decide) (by decide)).1
  rw [h]; decide

/-- C4: each received chunk is treated as one complete message candidate:
the handler writes exactly one response per processed chunk (so it never
buffers a partial message for later, nor splits one chunk into several
requests).  Concretely, a chunk holding the two null-terminated messages
`1 2` and `3 4` yields one response and is rejected as a single malformed
request, and a chunk holding `3 4` with no terminator at all is processed
at once. -/
theorem mulacc_C4 :
    (∀ (acc : Int) (chunks : List (List Nat)),
        (handle_client acc chunks).responses.length = processedLen chunks) ∧
    (handle_client accumulator [[49, 32, 50, 0, 51, 32, 52, 0]]).responses.length = 1 ∧
    (handle_client accumulator [[49, 32, 50, 0, 51, 32, 52, 0]]).acc = accumulator ∧
    (handle_client accumulator [[51, 32, 52]]).responses = [[49, 50, 0]] := by
  refine ⟨?_, by decide, by decide, by decide⟩
  intro acc chunks
  induction chunks generalizing acc with
  | nil => simp [handle_client, processedLen]
  | cons c cs ih =>
    by_cases hc : c = []
    · simp [handle_client, processedLen, hc]
    · cases hd : decodeUtf8 c with
      | none => simp [handle_client, processedLen, hc, hd]
      | some t =>
        simp [handle_client, processedLen, hc, hd, ih]
        omega

/-- C5: a chunk that is not valid UTF-8 ends the session: the decode
exception propagates (outcome `decodeError`, unlike an absorbed parse
failure), no response is written for it or any later chunk, the
accumulator is untouched, and the connection is closed once. -/
theorem mulacc_C5 :
    ∀ (acc : Int) (chunk : List Nat) (rest : List (List Nat)),
      decodeUtf8 chunk = none →
      handle_client acc (chunk :: rest) = ⟨[], acc, Outcome.decodeError, 1⟩ := by
  intro acc chunk rest hd
  have hc : chunk ≠ [] := by
    intro h
    rw [h] at hd
    exact absurd hd (by decide)
  simp [handle_client, hc, hd]

/-- Witness for C5 at the invalid byte `0xFF` with accumulator 7 and a
well-formed chunk after it, which is never processed. -/
theorem mulacc_C5_witness :
    handle_client 7 [[255], [51, 32, 52, 0]] = ⟨[], 7, Outcome.decodeError, 1⟩ :=
  mulacc_C5 7 [255] [[51, 32, 52, 0]] (by decide)

/-- C6: an empty read makes the handler leave the loop normally (outcome
`eof`, not an error) with the connection closed once; a failing `sendall`
ends the session with the connection likewise closed once (second
conjunct, covering the write-failure exit explicitly); on every exit path
— end-of-stream, decode failure or write failure, whatever the injected
send outcomes — the connection is closed exactly once: the close count is
1 whenever the run has ended and 0 only while it is still pending in
`recv`; and with no injected send failure the model is `handle_client`. -/
theorem mulacc_C6 :
    (∀ (acc : Int) (rest : List (List Nat)) (sends : List Bool),
        handle_client_io acc ([] :: rest) sends = ⟨[], acc, Outcome.eof, 1⟩) ∧
    (∀ (acc : Int) (chunk : List Nat) (rest : List (List Nat)) (ss : List Bool),
        handle_client_io acc (chunk :: rest) (false :: ss) =
          if chunk = [] then ⟨[], acc, Outcome.eof, 1⟩
          else
            match decodeUtf8 chunk with
            | none => ⟨[], acc, Outcome.decodeError, 1⟩
            | some text =>
              ⟨[], updateAcc acc (rstripNull text), Outcome.writeError, 1⟩) ∧
    (∀ (acc : Int) (chunks : List (List Nat)) (sends : List Bool),
        (handle_client_io acc chunks sends).closeCount =
          if (handle_client_io acc chunks sends).outcome = Outcome.pending then 0
          else 1) ∧
    (∀ (acc : Int) (chunks : List (List Nat)),
        handle_client_io acc chunks [] = handle_client acc chunks) := by
  refine ⟨?_, ?_, ?_, ?_⟩
  · intro acc rest sends
    simp [handle_client_io]
  · intro acc chunk rest ss
    by_cases hc : chunk = []
    · simp [handle_client_io, hc]
    · cases hd : decodeUtf8 chunk with
      | none => simp [handle_client_io, hc, hd]
      | some t => simp [handle_client_io, hc, hd]
  · intro acc chunks sends
    induction chunks generalizing acc sends with
    | nil => simp [handle_client_io]
    | cons c cs ih =>
      by_cases hc : c = []
      · simp [handle_client_io, hc]
      · cases hd : decodeUtf8 c with
        | none => simp [handle_client_io, hc, hd]
        | some t =>
          cases sends with
          | nil =>
            simp only [handle_client_io, if_neg hc, hd]
            exact ih _ _
          | cons b ss =>
            cases b with
            | false => simp [handle_client_io, hc, hd]
            | true =>
              simp only [handle_client_io, if_neg hc, hd]
              exact ih _ _
  · intro acc chunks
    induction chunks generalizing acc with
    | nil => simp [handle_client_io, handle_client]
    | cons c cs ih =>
      by_cases hc : c = []
      · simp [handle_client_io, handle_client, hc]
      · cases hd : decodeUtf8 c with
        | none => simp [handle_client_io, handle_client, hc, hd]
        | some t =>
          simp only [handle_client_io, handle_client, if_neg hc, hd]
          rw [ih]

/-- C7: stripping the terminator removes exactly the trailing run of null
characters: appending any run of nulls strips back to the same text, and a
text ending in a non-null character loses nothing — interior nulls stay. -/
theorem mulacc_C7 :
    ∀ (s : List Nat) (k c : Nat), c ≠ 0 →
      rstripNull (s ++ List.replicate k 0) = rstripNull s ∧
      rstripNull (s ++ [c]) = s ++ [c] := by
  intro s k c hc
  have hcb : (c == 0) = false := by simpa using hc
  constructor
  · rw [rstripNull, rstripNull]
    congr 1
    rw [List.reverse_append, List.reverse_replicate]
    simp
  · simp [rstripNull, List.dropWhile_cons, hcb]

/-- Witness for C7: two trailing nulls after `\x00A` are stripped while
the interior null survives, and `\x00AB` is left whole. -/
theorem mulacc_C7_witness :
    rstripNull ([0, 65] ++ List.replicate 2 0) = rstripNull [0, 65] ∧
      rstripNull ([0, 65] ++ [66]) = [0, 65] ++ [66] :=
  mulacc_C7 [0, 65] 2 66 (by decide)

/-- C8: the request `-3 4` from accumulator 0 adds the signed product -12
and is answered with `-12` followed by the null terminator. -/
theorem mulacc_C8 :
    handle_client accumulator [[45, 51, 32, 52, 0]] =
      ⟨[[45, 49, 50, 0]], -12, Outcome.pending, 0⟩ := by
  decide

/-- C9: the accumulator is never reset: every iteration either leaves it
unchanged or adds the product of the successfully parsed pair, and every
reachable step of the loop changes it only through that update. -/
theorem mulacc_C9 :
    (∀ (acc : Int) (msg : List Nat),
        updateAcc acc msg = acc ∨
          ∃ a b : Int, parsePair msg = some (a, b) ∧
            updateAcc acc msg = acc + a * b) ∧
    (∀ (acc : Int) (chunk : List Nat) (rest : List (List Nat)),
        (handle_client acc (chunk :: rest)).acc =
          if chunk = [] then acc
          else
            match decodeUtf8 chunk with
            | none => acc
            | some text =>
              (handle_client (updateAcc acc (rstripNull text)) rest).acc) := by
  constructor
  · intro acc msg
    cases h : parsePair msg with
    | none => exact Or.inl (by simp [updateAcc, h])
    | some p =>
      exact Or.inr ⟨p.1, p.2, by simp [h], by simp [updateAcc, h]⟩
  · intro acc chunk rest
    by_cases hc : chunk = []
    · simp [handle_client, hc]
    · cases hd : decodeUtf8 chunk with
      | none => simp [handle_client, hc, hd]
      | some t => simp [handle_client, hc, hd]

/-- C10: the session handler is deterministic: two runs from the same
initial accumulator on the same chunk sequence write the same responses
and end with the same accumulator. -/
theorem mulacc_C10 :
    ∀ (acc : Int) (chunks : List (List Nat)) (r1 r2 : RunResult),
      handle_client acc chunks = r1 → handle_client acc chunks = r2 →
      r1.responses = r2.responses ∧ r1.acc = r2.acc := by
  intro acc chunks r1 r2 h1 h2
  subst h1
  subst h2
  exact ⟨rfl, rfl⟩

/-- Witness for C10 at the request `3 4` from accumulator 0. -/
theorem mulacc_C10_witness :
    (handle_client 0 [[51, 32, 52, 0]]).responses =
        (handle_client 0 [[51, 32, 52, 0]]).responses ∧
      (handle_client 0 [[51, 32, 52, 0]]).acc =
        (handle_client 0 [[51, 32, 52, 0]]).acc :=
  mulacc_C10 0 [[51, 32, 52, 0]] (handle_client 0 [[51, 32, 52, 0]])
    (handle_client 0 [[51, 32, 52, 0]]) rfl rfl
